import Mathlib

/-!
Verification of the PrintGuard stream-ingestion layer.

Shallow embedding of the two ingestion engines:
* `MJPEGClient` (src/printguard/utils/mjpeg_client.py): the multipart
  ingestion engine with its marker-scanning decoder, frame cache,
  reconnect backoff and lifecycle flags.
* `WebRTCClient` (src/printguard/utils/webrtc_client.py): the negotiated
  media engine with its frame queue, liveness tracker, `read` staleness
  policy, two-protocol negotiation and the patched peer-identity check.

Bytes are modelled as natural numbers, frames as an arbitrary type `F`,
and the external image decoder (`cv2.imdecode`) as a parameter
`decode : List Nat -> Option F` (`none` covers both a `None` result and a
raised exception). Wall-clock instants and presentation timestamps are
modelled as integers.
-/

namespace PrintGuard

/-! ### Marker-scanning decoder (mjpeg_client.py, lines 84-110)

The capture loop appends each arriving chunk to `bytes_buffer`, then runs
`a = bytes_buffer.find(b'\xff\xd8')` and, if found,
`b = bytes_buffer.find(b'\xff\xd9', a)`; if both are found it slices
`jpg = bytes_buffer[a:b+2]`, truncates `bytes_buffer = bytes_buffer[b+2:]`,
and attempts to decode `jpg`. At most one payload is extracted per chunk.
-/

/-- JPEG start-of-image marker bytes `FF D8`. -/
def startM : List Nat := [255, 216]

/-- JPEG end-of-image marker bytes `FF D9`. -/
def endM : List Nat := [255, 217]

/-- Python `buffer.find(pat)` for a nonempty pattern: index of the first
occurrence of `pat` as a contiguous subsequence, `none` when absent
(Python returns `-1`). -/
def findPat (pat : List Nat) : List Nat → Option Nat
  | [] => none
  | b :: rest =>
    if pat.isPrefixOf (b :: rest) then some 0
    else (findPat pat rest).map (· + 1)

/-- Python `buffer.find(pat, s)`: first occurrence of `pat` at an index
that is at least `s`. -/
def findFrom (pat buf : List Nat) (s : Nat) : Option Nat :=
  (findPat pat (buf.drop s)).map (· + s)

/-- One invocation of the marker scan on the accumulated buffer: returns
the extracted payload (if a start marker and a later end marker are both
present) and the new buffer.  Mirrors lines 93-99 of mjpeg_client.py. -/
def scanStep (buf : List Nat) : Option (List Nat) × List Nat :=
  match findPat startM buf with
  | none => (none, buf)
  | some a =>
    match findFrom endM buf a with
    | none => (none, buf)
    | some b => (some ((buf.drop a).take (b + 2 - a)), buf.drop (b + 2))

/-- State of the multipart engine's capture loop within one connection:
the byte accumulator, the frames decoded so far (in order), the
single-slot frame cache `last_frame`, and the reconnect backoff
`retry_delay`. -/
structure MState (F : Type) where
  buffer : List Nat
  frames : List F
  cache : Option F
  retry : Nat
deriving Repr

/-- Processing of one arriving chunk (mjpeg_client.py lines 89-110):
append to the accumulator, run one marker scan, and on extraction attempt
a decode; a successful decode stores the frame in the cache and resets the
backoff to 1, a failed decode is discarded silently. -/
def feedChunk {F : Type} (decode : List Nat → Option F) (st : MState F)
    (chunk : List Nat) : MState F :=
  let buf := st.buffer ++ chunk
  match scanStep buf with
  | (none, b) => { st with buffer := b }
  | (some jpg, b) =>
    match decode jpg with
    | some f => ⟨b, st.frames ++ [f], some f, 1⟩
    | none => { st with buffer := b }

/-- Feeding a whole sequence of chunks through the capture loop. -/
def feedChunks {F : Type} (decode : List Nat → Option F) (st : MState F)
    (chunks : List (List Nat)) : MState F :=
  chunks.foldl (feedChunk decode) st

/-- The capture-loop state at the start of a connection: empty
accumulator, no frames yet. -/
def mInit {F : Type} (cache : Option F) (retry : Nat) : MState F :=
  ⟨[], [], cache, retry⟩

/-- A well-formed image payload: start marker, body, end marker, with the
first end-marker occurrence exactly at the closing marker (so no proper
prefix of the payload already contains an end marker). -/
def WFPayload (p : List Nat) : Prop :=
  ∃ body, p = startM ++ body ++ endM ∧ findPat endM p = some (body.length + 2)

/-! ### Capture-loop connection handling and backoff
(mjpeg_client.py lines 58-115)

One iteration of the `while self.running` loop either raises an
exception (timeout, transport error: sleep `retry_delay` then
`retry_delay = min(retry_delay * 2, 30)`), or gets a non-200 status
(sleep `retry_delay` and `continue`, without doubling), or streams chunks
through the decoder, where each successfully decoded frame resets
`retry_delay` to 1.  The byte accumulator is reinitialised to empty at
each new connection. -/

/-- Connection-level outcome of one main-loop iteration. -/
inductive ConnEvent where
  | statusFail
  | connError
  | success (chunks : List (List Nat))
deriving Repr

/-- Cross-connection state of the capture loop: the frame cache, the
current `retry_delay`, and the log of sleep durations performed. -/
structure CapState (F : Type) where
  cache : Option F
  retry : Nat
  sleeps : List Nat
deriving Repr

/-- One main-loop iteration of `_capture_loop`. -/
def connStep {F : Type} (decode : List Nat → Option F) (st : CapState F) :
    ConnEvent → CapState F
  | .statusFail => { st with sleeps := st.sleeps ++ [st.retry] }
  | .connError =>
    { st with sleeps := st.sleeps ++ [st.retry], retry := min (st.retry * 2) 30 }
  | .success chunks =>
    let m := feedChunks decode (mInit st.cache st.retry) chunks
    { st with cache := m.cache, retry := m.retry }

/-- Running the capture loop over a sequence of connection outcomes. -/
def capRun {F : Type} (decode : List Nat → Option F) (st : CapState F)
    (evs : List ConnEvent) : CapState F :=
  evs.foldl (connStep decode) st

/-- Initial capture-loop state: `retry_delay = 1`, no frame yet. -/
def capInit {F : Type} : CapState F := ⟨none, 1, []⟩

/-! ### MJPEG client lifecycle (mjpeg_client.py lines 15-46)

`__init__` sets `opened = True`, `running = False`, then calls `start()`,
which launches the capture thread and sets `running = True`.  `stop()`
sets `running = False` and `opened = False`; `release()` is `stop()`;
`start()` on a running client is a no-op, otherwise it relaunches the
capture thread; no method ever sets `opened` back to `True`. -/

/-- Lifecycle flags of an `MJPEGClient`, plus a count of capture-thread
launches. -/
structure MJLife where
  running : Bool
  opened : Bool
  launches : Nat
deriving Repr, DecidableEq

/-- State right after `MJPEGClient.__init__` returns (which calls
`start()` once). -/
def mjInit : MJLife := ⟨true, true, 1⟩

/-- `MJPEGClient.start`. -/
def mjStart (st : MJLife) : MJLife :=
  if st.running then st else ⟨true, st.opened, st.launches + 1⟩

/-- `MJPEGClient.stop`. -/
def mjStop (st : MJLife) : MJLife := ⟨false, false, st.launches⟩

/-- `MJPEGClient.release` (delegates to `stop`). -/
def mjRelease (st : MJLife) : MJLife := mjStop st

/-- `MJPEGClient.isOpened`. -/
def mjIsOpened (st : MJLife) : Bool := st.opened

/-- The public lifecycle operations of the multipart engine. -/
inductive MJOp where
  | start
  | stop
  | release
deriving Repr

/-- Applying one lifecycle operation. -/
def mjApply (st : MJLife) : MJOp → MJLife
  | .start => mjStart st
  | .stop => mjStop st
  | .release => mjRelease st

/-- Applying a sequence of lifecycle operations. -/
def mjApplyAll (st : MJLife) (ops : List MJOp) : MJLife :=
  ops.foldl mjApply st

/-! ### WebRTC client state (webrtc_client.py lines 58-273)

The negotiated-media engine holds a `queue.Queue(maxsize=1)` of frames,
a cached `_latest_frame`, the liveness tracker `_last_frame_time` /
`_last_pts` with `_timeout_sec = 5.0`, a `stopped` flag and a background
thread. -/

/-- State of a `WebRTCClient` visible to `read`, `_consume_track`,
`release` and `isOpened`. -/
structure WState (F : Type) where
  q : Option F
  latest : Option F
  lastFrameTime : Int
  lastPts : Option Int
  timeoutSec : Int
  stopped : Bool
  threadAlive : Bool
deriving Repr, DecidableEq

/-- State right after `WebRTCClient.__init__` returns: the background
thread has just been started. -/
def wInit (F : Type) : WState F := ⟨none, none, 0, none, 5, false, true⟩

/-- `WebRTCClient.isOpened`: `not self.stopped and self.thread and
self.thread.is_alive()`. -/
def wIsOpened {F : Type} (st : WState F) : Bool :=
  !st.stopped && st.threadAlive

/-- `WebRTCClient.release`: sets `stopped` and joins the thread (with a
bounded wait, so the thread flag itself is not forced). -/
def wRelease {F : Type} (st : WState F) : WState F :=
  { st with stopped := true }

/-- One iteration of `_consume_track` for an inbound sample with
presentation timestamp `pts`, received at wall-clock `now`, decoding to
image `img` (webrtc_client.py lines 222-240): the liveness tracker is
refreshed only when `self._last_pts is None or frame.pts != self._last_pts`,
and the capacity-1 queue is filled with drop-oldest semantics. -/
def consumeSample {F : Type} (st : WState F) (pts now : Int) (img : F) :
    WState F :=
  let st1 :=
    if st.lastPts = none ∨ st.lastPts ≠ some pts then
      { st with lastFrameTime := now, lastPts := some pts }
    else st
  { st1 with q := some img }

/-- Folding a list of `(pts, now, img)` samples through `_consume_track`. -/
def consumeAll {F : Type} (st : WState F) (samples : List (Int × Int × F)) :
    WState F :=
  samples.foldl (fun s x => consumeSample s x.1 x.2.1 x.2.2) st

/-- `WebRTCClient.read` at wall-clock instant `now` (webrtc_client.py
lines 247-265): pop the queue (updating `_latest_frame`) or fall back to
the cached frame; when a frame was obtained, return it iff
`now - _last_frame_time < _timeout_sec`, otherwise set `stopped` and
return `(false, none)`. -/
def wRead {F : Type} (st : WState F) (now : Int) :
    (Bool × Option F) × WState F :=
  let popped :=
    match st.q with
    | some f => (some f, { st with q := none, latest := some f })
    | none => (st.latest, st)
  match popped with
  | (some f, st1) =>
    if now - st.lastFrameTime < st.timeoutSec then ((true, some f), st1)
    else ((false, none), { st1 with stopped := true })
  | (none, st1) => ((false, none), st1)

/-! ### Negotiation engine (webrtc_client.py lines 96-216)

`_run` builds a peer connection, calls `_connect_custom`; on failure it
closes that peer connection, builds a fresh one and calls
`_connect_whep`.  The outcomes of the HTTP exchanges are modelled as
inputs. -/

/-- Outcome of one HTTP request: a raised exception, or a response with a
status code and a body.  An exception anywhere inside the surrounding
`try` of either connect routine makes that branch return `False`. -/
inductive ReqOutcome (β : Type) where
  | exn : ReqOutcome β
  | resp (status : Nat) (body : β) : ReqOutcome β
deriving Repr

/-- Parsed JSON body of the custom-signaling response:
`none` for an unparsable body, otherwise `(type, id, sdp)`. -/
def CustomBody : Type := Option (String × String × String)

/-- `WebRTCClient._connect_custom` (lines 144-195): requires status 200,
a parsable JSON body of type `"offer"`, and a 200 status on the answer
post; any exception or deviation returns `False`. -/
def connectCustom (r1 : ReqOutcome CustomBody) (r2 : ReqOutcome Unit) :
    Bool :=
  match r1 with
  | .exn => false
  | .resp s b =>
    if s ≠ 200 then false
    else
      match b with
      | none => false
      | some (ty, _, _) =>
        if ty ≠ "offer" then false
        else
          match r2 with
          | .exn => false
          | .resp s2 _ => s2 = 200

/-- `WebRTCClient._connect_whep` (lines 197-216): posts a local offer and
requires a 200 or 201 status on the response. -/
def connectWhep (r : ReqOutcome String) : Bool :=
  match r with
  | .exn => false
  | .resp s _ => s = 200 || s = 201

/-- Observable trace of `_run`'s negotiation phase: whether the WHEP
branch was attempted, how many peer-connection sessions were created, and
whether the engine reached the connected keep-alive loop. -/
structure NegTrace where
  whepAttempted : Bool
  pcsCreated : Nat
  connected : Bool
deriving Repr, DecidableEq

/-- The negotiation phase of `WebRTCClient._run` (lines 96-138): try the
custom (server-offer) protocol on a first peer connection; only on its
soft failure close it, create a fresh peer connection and try WHEP. -/
def runNeg (r1 : ReqOutcome CustomBody) (r2 : ReqOutcome Unit)
    (w : ReqOutcome String) : NegTrace :=
  if connectCustom r1 r2 then ⟨false, 1, true⟩
  else ⟨true, 2, connectWhep w⟩

/-! ### Patched peer-identity validation (webrtc_client.py lines 23-56)

On `InvalidVersion` (an X509 V1 certificate), the patch re-reads the
certificate via pyOpenSSL and compares its digest against each advertised
fingerprint: for each fingerprint, compute
`certificate.digest(fingerprint.algorithm.upper())` (a raise skips that
fingerprint via `continue`), strip colons and lowercase both sides, and
return (accepting) on the first match; with no advertised fingerprints it
returns (accepting).  When the loop finishes with no match, the code logs
the mismatch using the locals `digest_str` and `expected` and then marks
the session `FAILED` — but those locals are only assigned on iterations
whose digest call did not raise, so if every digest call raised, the log
line itself raises an unbound-local error and `_set_state(State.FAILED)`
is never reached. -/

/-- An advertised DTLS transport fingerprint. -/
structure Fingerprint where
  algorithm : String
  value : String
deriving Repr, DecidableEq

/-- `s.replace(":", "").lower()` on a hex digest string. -/
def normHex (s : String) : List Char :=
  (s.toList.filter (fun c => c ≠ ':')).map Char.toLower

/-- Whether one advertised fingerprint matches the certificate digest;
`digest` returns `none` when `certificate.digest(algo)` raises
(that fingerprint is skipped via `continue`). -/
def fpMatches (digest : String → Option String) (fp : Fingerprint) : Bool :=
  match digest fp.algorithm.toUpper with
  | none => false
  | some d => normHex d = normHex fp.value

/-- Outcome of the legacy fallback path: the session is left intact
(`accepted`), the session is marked `FAILED` (`failed`), or the function
raises an unbound-local error at the mismatch log line before reaching
`_set_state(State.FAILED)` (`crashed`). -/
inductive ValidateOutcome where
  | accepted
  | failed
  | crashed
deriving Repr, DecidableEq

/-- The legacy fallback path of `_patched_validate_peer_identity`:
with no advertised fingerprints it returns; a fingerprint match returns;
otherwise all fingerprints were visited and the post-loop code runs the
mismatch log line, which succeeds (and the session is marked `FAILED`)
exactly when some iteration bound `digest_str`, i.e. some digest call
did not raise; if every digest call raised, the log line raises an
unbound-local error instead. -/
def legacyValidate (digest : String → Option String)
    (fps : List Fingerprint) : ValidateOutcome :=
  match fps with
  | [] => ValidateOutcome.accepted
  | _ :: _ =>
    if fps.any (fpMatches digest) then ValidateOutcome.accepted
    else if fps.any (fun fp => (digest fp.algorithm.toUpper).isSome) then
      ValidateOutcome.failed
    else ValidateOutcome.crashed

/-! ## Helper lemmas -/

lemma findPat_nil (pat : List Nat) : findPat pat [] = none := rfl

lemma findPat_cons (pat : List Nat) (x : Nat) (l : List Nat) :
    findPat pat (x :: l) =
      if pat.isPrefixOf (x :: l) then some 0
      else (findPat pat l).map (· + 1) := rfl

lemma findPat_eq_none_cons (pat : List Nat) (x : Nat) (l : List Nat) :
    findPat pat (x :: l) = none ↔
      pat.isPrefixOf (x :: l) = false ∧ findPat pat l = none := by
  rw [findPat_cons]
  by_cases h : pat.isPrefixOf (x :: l) <;>
    simp [h, Option.map_eq_none']

lemma isPrefixOf_pair (a b : Nat) (x y : Nat) (l : List Nat) :
    ([a, b].isPrefixOf (x :: y :: l)) = ((a == x) && (b == y)) := by
  simp [List.isPrefixOf]

lemma findPat_startM_append (noise : List Nat) (p : List Nat)
    (t : List Nat) (hp : p = 255 :: 216 :: t)
    (h : findPat startM noise = none) :
    findPat startM (noise ++ p) = some noise.length := by
  induction noise with
  | nil =>
    subst hp
    rw [List.nil_append, findPat_cons]
    simp [startM, List.isPrefixOf]
  | cons x ns ih =>
    rw [findPat_eq_none_cons] at h
    obtain ⟨hpre, hns⟩ := h
    have hcond : startM.isPrefixOf (x :: (ns ++ p)) = false := by
      cases ns with
      | nil =>
        subst hp
        simp [startM, List.isPrefixOf]
      | cons y ns2 =>
        rw [show x :: ((y :: ns2) ++ p) = x :: y :: (ns2 ++ p) from rfl]
        rw [show (startM : List Nat) = [255, 216] from rfl] at hpre ⊢
        rw [isPrefixOf_pair] at hpre ⊢
        exact hpre
    rw [show (x :: ns) ++ p = x :: (ns ++ p) from rfl, findPat_cons, hcond]
    simp [ih hns]

lemma findFrom_append (pat noise p : List Nat) :
    findFrom pat (noise ++ p) noise.length =
      (findPat pat p).map (· + noise.length) := by
  unfold findFrom
  rw [List.drop_left]

lemma scanStep_wf (noise p : List Nat)
    (hn : findPat startM noise = none) (hp : WFPayload p) :
    scanStep (noise ++ p) = (some p, []) := by
  obtain ⟨body, hpe, hfind⟩ := hp
  have hpl : p.length = body.length + 4 := by
    rw [hpe]
    simp [startM, endM]
    try omega
  have ha : findPat startM (noise ++ p) = some noise.length :=
    findPat_startM_append noise p (body ++ endM) (by rw [hpe]; rfl) hn
  have hb : findFrom endM (noise ++ p) noise.length =
      some (body.length + 2 + noise.length) := by
    rw [findFrom_append, hfind]; rfl
  have hdrop : (noise ++ p).drop noise.length = p := List.drop_left noise p
  have htake : p.take (body.length + 2 + noise.length + 2 - noise.length) = p := by
    have he : body.length + 2 + noise.length + 2 - noise.length = p.length := by
      omega
    rw [he, List.take_length]
  have hdrop2 : (noise ++ p).drop (body.length + 2 + noise.length + 2) = [] := by
    apply List.drop_eq_nil_of_le
    simp [hpl]
    omega
  simp only [scanStep, ha, hb, hdrop, htake, hdrop2]

lemma feedChunk_no_extract {F : Type} (decode : List Nat → Option F)
    (st : MState F) (chunk : List Nat)
    (h : scanStep (st.buffer ++ chunk) = (none, st.buffer ++ chunk)) :
    feedChunk decode st chunk = { st with buffer := st.buffer ++ chunk } := by
  simp only [feedChunk, h]

lemma scanStep_of_no_start (buf : List Nat)
    (h : findPat startM buf = none) : scanStep buf = (none, buf) := by
  simp only [scanStep, h]

lemma feedChunk_payload {F : Type} (decode : List Nat → Option F)
    (st : MState F) (p : List Nat) (f : F)
    (hn : findPat startM st.buffer = none) (hp : WFPayload p)
    (hd : decode p = some f) :
    feedChunk decode st p = ⟨[], st.frames ++ [f], some f, 1⟩ := by
  simp only [feedChunk, scanStep_wf st.buffer p hn hp, hd]

lemma feed_payloads {F : Type} (decode : List Nat → Option F)
    (ps : List (List Nat)) (fs : List F)
    (h : List.Forall₂ (fun p f => WFPayload p ∧ decode p = some f) ps fs) :
    ∀ acc : List F, ∀ c : Option F, ∀ r : Nat,
      ∃ c2 : Option F, ∃ r2 : Nat,
        feedChunks decode ⟨[], acc, c, r⟩ ps = ⟨[], acc ++ fs, c2, r2⟩ := by
  induction h with
  | nil =>
    intro acc c r
    exact ⟨c, r, by simp [feedChunks]⟩
  | @cons p f ps2 fs2 hpf htail ih =>
    intro acc c r
    obtain ⟨hwf, hdec⟩ := hpf
    obtain ⟨c2, r2, hrec⟩ := ih (acc ++ [f]) (some f) 1
    refine ⟨c2, r2, ?_⟩
    have hstep : feedChunk decode ⟨[], acc, c, r⟩ p = ⟨[], acc ++ [f], some f, 1⟩ :=
      feedChunk_payload decode ⟨[], acc, c, r⟩ p f rfl hwf hdec
    show List.foldl (feedChunk decode) ⟨[], acc, c, r⟩ (p :: ps2) =
      (⟨[], acc ++ f :: fs2, c2, r2⟩ : MState F)
    rw [List.foldl_cons, hstep]
    show feedChunks decode ⟨[], acc ++ [f], some f, 1⟩ ps2 =
      (⟨[], acc ++ f :: fs2, c2, r2⟩ : MState F)
    rw [hrec]
    simp

/-! ## Claim theorems -/

/-- C1: every call to `read` on the negotiated-media engine that obtains a
frame (fresh from the frame queue or from the cached last frame) compares
`now - last real-progress time` against the staleness threshold of 5: if
within the threshold it returns `(true, frame)`, otherwise it marks the
engine stopped and returns `(false, none)`, so a subsequent `isOpened`
reports not-open. -/
theorem read_staleness_policy {F : Type} (st : WState F) (now : Int) (f : F)
    (htimeout : st.timeoutSec = 5)
    (hobt : st.q = some f ∨ (st.q = none ∧ st.latest = some f)) :
    (now - st.lastFrameTime < 5 →
      (wRead st now).1 = (true, some f) ∧
      (wRead st now).2.stopped = st.stopped) ∧
    (¬ now - st.lastFrameTime < 5 →
      (wRead st now).1 = (false, none) ∧
      (wRead st now).2.stopped = true ∧
      wIsOpened (wRead st now).2 = false) := by
  constructor
  · intro hlt
    rcases hobt with h | hql
    · simp [wRead, h, htimeout, hlt]
    · obtain ⟨hq, hl⟩ := hql
      simp [wRead, hq, hl, htimeout, hlt]
  · intro hlt
    rcases hobt with h | hql
    · simp [wRead, wIsOpened, h, htimeout, hlt]
    · obtain ⟨hq, hl⟩ := hql
      simp [wRead, wIsOpened, hq, hl, htimeout, hlt]

/-- Witness for C1 at a concrete state: a fresh frame within the
threshold is returned with `true`. -/
theorem read_staleness_policy_witness :
    (wRead (⟨some 7, none, 0, none, 5, false, true⟩ : WState Nat) 3).1 =
      (true, some 7) :=
  ((read_staleness_policy ⟨some 7, none, 0, none, 5, false, true⟩ 3 7 rfl
    (Or.inl rfl)).1 (by decide)).1

/-- C2 counterexample: the claim says the last real-progress time is
updated only when the presentation timestamp strictly advances, but a
sample whose timestamp regresses (here 50 after 100) also updates it. -/
theorem liveness_update_counterexample :
    (consumeSample (wInit Nat) 100 1 0).lastPts = some 100 ∧
    (consumeSample (consumeSample (wInit Nat) 100 1 0) 50 2 0).lastFrameTime
      = 2 ∧
    (consumeSample (consumeSample (wInit Nat) 100 1 0) 50 2 0).lastPts
      = some 50 ∧
    ¬ (100 : Int) < 50 := by
  refine ⟨?_, ?_, ?_, by decide⟩ <;> decide

/-- C2 (amended): the last real-progress time is updated exactly when the
sample is the first one or its timestamp differs from the previously
recorded one (whether it advances or regresses); a timestamp equal to the
previous one never updates it; for the sequence [100, 100, 100, 200] at
instants 1, 2, 3, 4 the progress time updates exactly at the 1st and 4th
samples. -/
theorem liveness_update_amended {F : Type} (st : WState F)
    (pts now : Int) (img : F) :
    (st.lastPts = none ∨ st.lastPts ≠ some pts →
      (consumeSample st pts now img).lastFrameTime = now ∧
      (consumeSample st pts now img).lastPts = some pts) ∧
    (st.lastPts = some pts →
      (consumeSample st pts now img).lastFrameTime = st.lastFrameTime ∧
      (consumeSample st pts now img).lastPts = st.lastPts) ∧
    ((consumeAll (wInit F) [(100, 1, img)]).lastFrameTime = 1 ∧
     (consumeAll (wInit F)
        [(100, 1, img), (100, 2, img)]).lastFrameTime = 1 ∧
     (consumeAll (wInit F)
        [(100, 1, img), (100, 2, img), (100, 3, img)]).lastFrameTime = 1 ∧
     (consumeAll (wInit F)
        [(100, 1, img), (100, 2, img), (100, 3, img),
         (200, 4, img)]).lastFrameTime = 4) := by
  refine ⟨?_, ?_, ?_⟩
  · intro h
    simp [consumeSample, if_pos h]
  · intro h
    have hcond : ¬ (st.lastPts = none ∨ st.lastPts ≠ some pts) := by
      simp [h]
    simp [consumeSample, if_neg hcond]
  · refine ⟨?_, ?_, ?_, ?_⟩ <;>
      simp [consumeAll, consumeSample, wInit]

/-- Witness for C2's amended theorem: a first sample updates the
progress time. -/
theorem liveness_update_amended_witness :
    (consumeSample (wInit Nat) 5 9 0).lastFrameTime = 9 :=
  ((liveness_update_amended (wInit Nat) 5 9 0).1 (Or.inl rfl)).1

/-- C3 counterexample: two consecutive non-success response statuses.
The claim predicts delays 1 then 2 (doubling after every connection-level
failure), but the code only doubles on exceptions; the observed delays
are 1, 1 and the backoff is still 1. -/
theorem backoff_status_counterexample :
    (capRun (fun _ => (none : Option Nat)) capInit
      [ConnEvent.statusFail, ConnEvent.statusFail]).sleeps = [1, 1] ∧
    (capRun (fun _ => (none : Option Nat)) capInit
      [ConnEvent.statusFail, ConnEvent.statusFail]).retry = 1 ∧
    ¬ ([1, 1] : List Nat) = [1, 2] := by
  refine ⟨?_, ?_, by decide⟩ <;> rfl

/-- C3 (amended): a timeout or transport error (an exception in the main
loop) sleeps for the current backoff and then doubles it up to the cap of
30; a non-success response status sleeps for the current backoff without
doubling it; the backoff resets to 1 when a frame is successfully
decoded; across eight consecutive timeout/transport failures the observed
delays are 1, 2, 4, 8, 16, 30, 30, 30. -/
theorem backoff_amended {F : Type} (decode : List Nat → Option F)
    (st : CapState F) (p j b : List Nat) (f : F)
    (hscan : scanStep p = (some j, b)) (hdec : decode j = some f) :
    connStep decode st ConnEvent.statusFail =
      { st with sleeps := st.sleeps ++ [st.retry] } ∧
    connStep decode st ConnEvent.connError =
      { st with sleeps := st.sleeps ++ [st.retry],
                retry := min (st.retry * 2) 30 } ∧
    (capRun decode capInit
      [ConnEvent.connError, ConnEvent.connError, ConnEvent.connError,
       ConnEvent.connError, ConnEvent.connError, ConnEvent.connError,
       ConnEvent.connError, ConnEvent.connError]).sleeps =
      [1, 2, 4, 8, 16, 30, 30, 30] ∧
    (connStep decode st (ConnEvent.success [p])).retry = 1 ∧
    (connStep decode st (ConnEvent.success [p])).cache = some f := by
  refine ⟨rfl, rfl, ?_, ?_, ?_⟩
  · norm_num [capRun, connStep, capInit]
  · simp [connStep, feedChunks, feedChunk, mInit, hscan, hdec]
  · simp [connStep, feedChunks, feedChunk, mInit, hscan, hdec]

/-- Witness for C3's amended theorem: a successfully decoded payload
resets the backoff to 1. -/
theorem backoff_amended_witness :
    (connStep (fun l => some l.length) (⟨none, 16, []⟩ : CapState Nat)
      (ConnEvent.success [[255, 216, 255, 217]])).retry = 1 :=
  (backoff_amended (fun l => some l.length) ⟨none, 16, []⟩
    [255, 216, 255, 217] [255, 216, 255, 217] [] 4
    (by decide) (by decide)).2.2.2.1

/-- C4 counterexample: the scanning loop extracts at most one payload per
received chunk, so a single chunk containing two well-formed payloads
(N = 2, no leading noise) emits only one frame, and the residual
accumulator still holds a whole payload rather than only the bytes after
the last end marker. -/
theorem decoder_chunk_counterexample :
    WFPayload [255, 216, 255, 217] ∧
    (feedChunks (fun l => some l) (mInit none 1)
      [[255, 216, 255, 217, 255, 216, 255, 217]]).frames
        = [[255, 216, 255, 217]] ∧
    (feedChunks (fun l => some l) (mInit none 1)
      [[255, 216, 255, 217, 255, 216, 255, 217]]).buffer
        = [255, 216, 255, 217] ∧
    ¬ ([255, 216, 255, 217] : List Nat) = [] :=
  ⟨⟨[], by decide, by decide⟩, by decide, by decide, by decide⟩

/-- C4 (amended): for a byte stream consisting of noise containing no
start marker, then N well-formed decodable image payloads, then a
remainder on which the scan finds nothing, delivered in chunks such that
each chunk completes at most one payload (here: the noise, then one chunk
per payload, then the remainder), the decoder emits exactly the N decoded
frames in stream order and the residual accumulator holds exactly the
bytes after the last end marker. -/
theorem decoder_emits_all_payloads {F : Type} (decode : List Nat → Option F)
    (noise rest p0 : List Nat) (ps : List (List Nat)) (f0 : F) (fs : List F)
    (hn : findPat startM noise = none)
    (h0 : WFPayload p0) (hd0 : decode p0 = some f0)
    (hps : List.Forall₂ (fun p f => WFPayload p ∧ decode p = some f) ps fs)
    (hrest : scanStep rest = (none, rest)) :
    (feedChunks decode (mInit none 1)
      (noise :: p0 :: (ps ++ [rest]))).frames = f0 :: fs ∧
    (feedChunks decode (mInit none 1)
      (noise :: p0 :: (ps ++ [rest]))).buffer = rest := by
  have hstep0 : feedChunk decode (mInit (none : Option F) 1) noise =
      ⟨noise, [], none, 1⟩ := by
    have h1 : scanStep ((mInit (none : Option F) 1).buffer ++ noise) =
        (none, (mInit (none : Option F) 1).buffer ++ noise) := by
      show scanStep ([] ++ noise) = (none, [] ++ noise)
      rw [List.nil_append]
      exact scanStep_of_no_start noise hn
    exact feedChunk_no_extract decode _ noise h1
  have hstep1 : feedChunk decode (⟨noise, [], none, 1⟩ : MState F) p0 =
      ⟨[], [f0], some f0, 1⟩ :=
    feedChunk_payload decode ⟨noise, [], none, 1⟩ p0 f0 hn h0 hd0
  obtain ⟨c2, r2, hmid⟩ := feed_payloads decode ps fs hps [f0] (some f0) 1
  have hlast : feedChunk decode (⟨[], f0 :: fs, c2, r2⟩ : MState F) rest =
      ⟨rest, f0 :: fs, c2, r2⟩ := by
    have h1 : scanStep (([] : List Nat) ++ rest) =
        (none, ([] : List Nat) ++ rest) := by
      rw [List.nil_append]; exact hrest
    exact feedChunk_no_extract decode ⟨[], f0 :: fs, c2, r2⟩ rest h1
  have hrun : feedChunks decode (mInit none 1)
      (noise :: p0 :: (ps ++ [rest])) = ⟨rest, f0 :: fs, c2, r2⟩ := by
    show List.foldl (feedChunk decode) (mInit none 1)
      (noise :: p0 :: (ps ++ [rest])) = _
    rw [List.foldl_cons, hstep0, List.foldl_cons, hstep1,
      List.foldl_append]
    have hmid2 : List.foldl (feedChunk decode) ⟨[], [f0], some f0, 1⟩ ps =
        (⟨[], f0 :: fs, c2, r2⟩ : MState F) := by
      have := hmid
      simpa [feedChunks] using this
    rw [hmid2]
    simp [List.foldl, hlast]
  rw [hrun]
  exact ⟨rfl, rfl⟩

/-- Witness for C4's amended theorem: noise, one payload, then a
remainder. -/
theorem decoder_emits_all_payloads_witness :
    (feedChunks (fun l => some l) (mInit none 1)
      [[0, 1], [255, 216, 7, 255, 217], [9]]).frames
        = [[255, 216, 7, 255, 217]] ∧
    (feedChunks (fun l => some l) (mInit none 1)
      [[0, 1], [255, 216, 7, 255, 217], [9]]).buffer = [9] :=
  decoder_emits_all_payloads (fun l => some l) [0, 1] [9]
    [255, 216, 7, 255, 217] [] [255, 216, 7, 255, 217] []
    (by decide) ⟨[7], by decide, by decide⟩ rfl List.Forall₂.nil (by decide)

/-- C5: a payload whose markers are present but whose content fails to
decode produces no frame and leaves the frame cache unchanged, and a
subsequent well-formed payload in the same stream is still decoded and
stored; a corrupt payload never stops the scanning loop. -/
theorem corrupt_payload_skipped {F : Type} (decode : List Nat → Option F)
    (st : MState F) (pbad pgood jb jg b1 b2 : List Nat) (f : F)
    (hsb : scanStep (st.buffer ++ pbad) = (some jb, b1))
    (hdb : decode jb = none)
    (hsg : scanStep (b1 ++ pgood) = (some jg, b2))
    (hdg : decode jg = some f) :
    (feedChunk decode st pbad).frames = st.frames ∧
    (feedChunk decode st pbad).cache = st.cache ∧
    (feedChunks decode st [pbad, pgood]).frames = st.frames ++ [f] ∧
    (feedChunks decode st [pbad, pgood]).cache = some f := by
  have hbad : feedChunk decode st pbad = { st with buffer := b1 } := by
    simp only [feedChunk, hsb, hdb]
  have hgood : feedChunk decode { st with buffer := b1 } pgood =
      ⟨b2, st.frames ++ [f], some f, 1⟩ := by
    simp only [feedChunk, hsg, hdg]
  have hrun : feedChunks decode st [pbad, pgood] =
      ⟨b2, st.frames ++ [f], some f, 1⟩ := by
    show List.foldl (feedChunk decode) st [pbad, pgood] = _
    rw [List.foldl_cons, hbad, List.foldl_cons, hgood]
    rfl
  exact ⟨by rw [hbad], by rw [hbad], by rw [hrun], by rw [hrun]⟩

/-- Witness for C5 at concrete payloads: the corrupt payload is skipped
and the following well-formed payload is decoded and cached. -/
theorem corrupt_payload_skipped_witness :
    (feedChunks
      (fun l => if l = [255, 216, 1, 255, 217] then some 42 else none)
      (mInit (none : Option Nat) 1)
      [[255, 216, 0, 255, 217], [255, 216, 1, 255, 217]]).frames = [42] ∧
    (feedChunks
      (fun l => if l = [255, 216, 1, 255, 217] then some 42 else none)
      (mInit (none : Option Nat) 1)
      [[255, 216, 0, 255, 217], [255, 216, 1, 255, 217]]).cache = some 42 := by
  have h := corrupt_payload_skipped
    (fun l => if l = [255, 216, 1, 255, 217] then some (42 : Nat) else none)
    (mInit none 1) [255, 216, 0, 255, 217] [255, 216, 1, 255, 217]
    [255, 216, 0, 255, 217] [255, 216, 1, 255, 217] [] [] 42
    (by decide) (by decide) (by decide) (by decide)
  exact ⟨h.2.2.1, h.2.2.2⟩

/-- C6: if the accumulator holds a start marker but no end marker at or
after it, the engine emits zero frames and leaves the accumulated bytes
entirely unchanged (no truncation) until further bytes arrive. -/
theorem incomplete_payload_buffered {F : Type} (decode : List Nat → Option F)
    (st : MState F) (chunk : List Nat) (a : Nat)
    (ha : findPat startM (st.buffer ++ chunk) = some a)
    (hb : findFrom endM (st.buffer ++ chunk) a = none) :
    scanStep (st.buffer ++ chunk) = (none, st.buffer ++ chunk) ∧
    feedChunk decode st chunk = { st with buffer := st.buffer ++ chunk } := by
  have hscan : scanStep (st.buffer ++ chunk) =
      (none, st.buffer ++ chunk) := by
    simp only [scanStep, ha, hb]
  exact ⟨hscan, feedChunk_no_extract decode st chunk hscan⟩

/-- Witness for C6: a chunk whose bytes contain `FF D8` but no later
`FF D9` is buffered whole and yields no frame. -/
theorem incomplete_payload_buffered_witness :
    (feedChunk (fun l => some l) (mInit none 1) [0, 255, 216, 7]).buffer
      = [0, 255, 216, 7] ∧
    (feedChunk (fun l => some l) (mInit none 1) [0, 255, 216, 7]).frames
      = [] := by
  have h := (incomplete_payload_buffered (fun l => some l)
    (mInit none 1) [0, 255, 216, 7] 1 (by decide) (by decide)).2
  rw [h]
  exact ⟨rfl, rfl⟩

/-- C7: the negotiation engine attempts the server-offer (custom)
protocol first; if it succeeds the WHEP branch is never attempted and a
single session is used; only upon the custom branch's soft failure does
the engine discard that session, create a fresh one (two sessions in
total) and attempt the client-offer (WHEP) protocol, whose outcome then
decides connectivity. -/
theorem negotiation_fallback (r1 : ReqOutcome CustomBody)
    (r2 : ReqOutcome Unit) (w : ReqOutcome String) :
    (connectCustom r1 r2 = true →
      runNeg r1 r2 w = ⟨false, 1, true⟩) ∧
    (connectCustom r1 r2 = false →
      runNeg r1 r2 w = ⟨true, 2, connectWhep w⟩) := by
  constructor
  · intro h
    simp [runNeg, h]
  · intro h
    simp [runNeg, h]

/-- Witness for C7: a 200 response whose JSON type is not "offer" makes
the custom branch soft-fail, and a 201 WHEP answer then connects. -/
theorem negotiation_fallback_witness :
    runNeg (ReqOutcome.resp 200 (some ("answer", "i", "s") : CustomBody))
      (ReqOutcome.resp 200 ()) (ReqOutcome.resp 201 "v") =
      ⟨true, 2, true⟩ := by
  have h := (negotiation_fallback
    (ReqOutcome.resp 200 (some ("answer", "i", "s") : CustomBody))
    (ReqOutcome.resp 200 ()) (ReqOutcome.resp 201 "v")).2 (by decide)
  rw [h]
  rfl

/-- C8: the fallback identity-validation path for the older certificate
encoding accepts (without marking the session failed) whenever some
advertised transport fingerprint matches the certificate digest, or when
no fingerprints are advertised; it marks the session failed only if none
of the advertised fingerprints match — precisely, `FAILED` is reached
exactly when fingerprints are advertised, none matches, and at least one
digest computation succeeded (binding the log line's operands); when
every digest call raises, the mismatch log line raises an unbound-local
error instead and `FAILED` is never set. -/
theorem legacy_identity_validation (digest : String → Option String)
    (fps : List Fingerprint) :
    ((∃ fp ∈ fps, fpMatches digest fp = true) →
      legacyValidate digest fps = ValidateOutcome.accepted) ∧
    (legacyValidate digest fps = ValidateOutcome.failed →
      fps ≠ [] ∧ ∀ fp ∈ fps, fpMatches digest fp = false) ∧
    (legacyValidate digest fps = ValidateOutcome.failed ↔
      fps ≠ [] ∧ (∀ fp ∈ fps, fpMatches digest fp = false) ∧
      ∃ fp ∈ fps, (digest fp.algorithm.toUpper).isSome = true) ∧
    (legacyValidate digest fps = ValidateOutcome.crashed ↔
      fps ≠ [] ∧ ∀ fp ∈ fps, digest fp.algorithm.toUpper = none) := by
  cases fps with
  | nil => simp [legacyValidate]
  | cons a l =>
    by_cases hm : (a :: l).any (fpMatches digest) = true
    · have h1 : legacyValidate digest (a :: l) = ValidateOutcome.accepted := by
        simp only [legacyValidate]
        rw [if_pos hm]
      rw [List.any_eq_true] at hm
      obtain ⟨fp0, hmem0, hfp0⟩ := hm
      refine ⟨fun _ => h1, ?_, ?_, ?_⟩
      · intro hf; rw [h1] at hf; simp at hf
      · rw [h1]
        constructor
        · intro hf; simp at hf
        · rintro ⟨-, hall, -⟩
          have hc := hall fp0 hmem0
          rw [hfp0] at hc
          simp at hc
      · rw [h1]
        constructor
        · intro hf; simp at hf
        · rintro ⟨-, hall⟩
          have hd := hall fp0 hmem0
          unfold fpMatches at hfp0
          rw [hd] at hfp0
          simp at hfp0
    · have hm2 : (a :: l).any (fpMatches digest) = false := by
        simpa using hm
      have hnomatch : ∀ fp ∈ a :: l, fpMatches digest fp = false := by
        intro fp hmem
        have := List.any_eq_false.mp hm2 fp hmem
        simpa using this
      have hnoex : ¬ ∃ fp ∈ a :: l, fpMatches digest fp = true := by
        rintro ⟨fp, hmem, hfp⟩
        rw [hnomatch fp hmem] at hfp
        simp at hfp
      by_cases hs : (a :: l).any (fun fp => (digest fp.algorithm.toUpper).isSome) = true
      · have h1 : legacyValidate digest (a :: l) = ValidateOutcome.failed := by
          simp only [legacyValidate]
          rw [if_neg hm, if_pos hs]
        rw [List.any_eq_true] at hs
        refine ⟨fun hex => absurd hex hnoex, fun _ => ⟨by simp, hnomatch⟩, ?_, ?_⟩
        · rw [h1]
          exact ⟨fun _ => ⟨by simp, hnomatch, hs⟩, fun _ => rfl⟩
        · rw [h1]
          constructor
          · intro hf; simp at hf
          · rintro ⟨-, hall⟩
            obtain ⟨fp0, hmem0, hd0⟩ := hs
            rw [hall fp0 hmem0] at hd0
            simp at hd0
      · have hs2 : (a :: l).any
            (fun fp => (digest fp.algorithm.toUpper).isSome) = false := by
          simpa using hs
        have h1 : legacyValidate digest (a :: l) = ValidateOutcome.crashed := by
          simp only [legacyValidate]
          rw [if_neg hm, if_neg hs]
        have hallnone : ∀ fp ∈ a :: l, digest fp.algorithm.toUpper = none := by
          intro fp hmem
          have hb := List.any_eq_false.mp hs2 fp hmem
          cases hdig : digest fp.algorithm.toUpper with
          | none => rfl
          | some d => rw [hdig] at hb; simp at hb
        refine ⟨fun hex => absurd hex hnoex, ?_, ?_, ?_⟩
        · intro hf; rw [h1] at hf; simp at hf
        · rw [h1]
          constructor
          · intro hf; simp at hf
          · rintro ⟨-, -, fp0, hmem0, hd0⟩
            rw [hallnone fp0 hmem0] at hd0
            simp at hd0
        · rw [h1]
          exact ⟨fun _ => ⟨by simp, hallnone⟩, fun _ => rfl⟩

/-- Witness for C8: a single advertised fingerprint whose digest
computes but does not match marks the session failed. -/
theorem legacy_identity_validation_witness :
    legacyValidate (fun _ => some "AA:BB") [⟨"sha-256", "cc"⟩] =
      ValidateOutcome.failed :=
  (legacy_identity_validation (fun _ => some "AA:BB")
    [⟨"sha-256", "cc"⟩]).2.2.1.mpr ⟨by decide, by decide, by decide⟩

/-- C9 counterexample: on the multipart engine, calling `start` after
`release` does relaunch the capture loop (`running` is set, a second
thread launch happens) and `start` returns, yet `isOpened` still reports
false, contradicting the claim that `isOpened` is true immediately after
every `start` returns. -/
theorem isopened_after_restart_counterexample :
    (mjStart (mjRelease mjInit)).running = true ∧
    (mjStart (mjRelease mjInit)).launches = 2 ∧
    mjIsOpened (mjStart (mjRelease mjInit)) = false := by
  refine ⟨rfl, rfl, rfl⟩

/-- C9 (amended): for both engine types, `isOpened` is true immediately
after construction (whose implicit start launches the background
context) and false after `release` returns; however, on the multipart
engine an explicit `start` after `release`, although it relaunches the
capture loop, leaves `isOpened` false. -/
theorem isopened_lifecycle_amended (F : Type) :
    mjIsOpened mjInit = true ∧
    mjIsOpened (mjRelease mjInit) = false ∧
    wIsOpened (wInit F) = true ∧
    wIsOpened (wRelease (wInit F)) = false ∧
    mjIsOpened (mjStart (mjRelease mjInit)) = false := by
  refine ⟨rfl, rfl, rfl, rfl, rfl⟩

/-- Witness for C9's amended theorem at a concrete frame type. -/
theorem isopened_lifecycle_amended_witness :
    wIsOpened (wInit Nat) = true :=
  (isopened_lifecycle_amended Nat).2.2.1

/-- No lifecycle operation restores a cleared `opened` flag. -/
lemma mjApply_opened_false (st : MJLife) (h : st.opened = false)
    (op : MJOp) : (mjApply st op).opened = false := by
  cases op with
  | start =>
    show (mjStart st).opened = false
    unfold mjStart
    split
    · exact h
    · exact h
  | stop => rfl
  | release => rfl

/-- The cleared `opened` flag persists through any operation sequence. -/
lemma mjApplyAll_opened_false (ops : List MJOp) :
    ∀ st : MJLife, st.opened = false → (mjApplyAll st ops).opened = false := by
  induction ops with
  | nil => intro st h; exact h
  | cons op rest ih =>
    intro st h
    show (mjApplyAll (mjApply st op) rest).opened = false
    exact ih (mjApply st op) (mjApply_opened_false st h op)

/-- C10: once `stop` (or `release`) has been called on a multipart-engine
handle, `isOpened` returns false in every later state, whatever further
`start`/`stop`/`release` operations are applied; a subsequent `start`
does relaunch the background capture loop, but no operation ever sets the
`opened` flag back to true. -/
theorem opened_never_restored (st : MJLife) (ops : List MJOp) :
    mjIsOpened (mjApplyAll (mjStop st) ops) = false ∧
    mjIsOpened (mjApplyAll (mjRelease st) ops) = false ∧
    (mjStart (mjStop st)).running = true ∧
    (mjStart (mjStop st)).launches = st.launches + 1 := by
  refine ⟨?_, ?_, rfl, rfl⟩ <;>
    exact mjApplyAll_opened_false ops _ rfl

/-- Witness for C10 at a concrete trace: construct, stop, start again. -/
theorem opened_never_restored_witness :
    mjIsOpened (mjApplyAll (mjStop mjInit) [MJOp.start]) = false :=
  (opened_never_restored mjInit [MJOp.start]).1

end PrintGuard
